import Mathlib

/-!
Verification of the canvas path tracer core (a Monte Carlo path tracer
rendered progressively onto a canvas).

The JavaScript source is shallowly embedded over the real numbers:
JavaScript `number` values become `ℝ`, `Math.sqrt` becomes `Real.sqrt`,
`Math.pow` becomes `Real.rpow`, `Math.acos`/`Math.sin`/`Math.cos` become
`Real.arccos`/`Real.sin`/`Real.cos`, and `Math.random()` draws are passed
explicitly as arguments.  A JavaScript `Intersection` with `isHit == false`
(whose other fields are left `undefined`) is embedded as `none`, and
`new Intersection(true, t, n, m)` as `some ⟨t, n, m⟩`.  The recursive
integrator `Ray.tracePathInScene` is embedded with an explicit fuel
argument modelling the JavaScript call stack: `none` means the fuel was
exhausted (the JavaScript function would still be recursing), `some v`
means the function returned `v`.
-/

/-- Vec3: the 3-component vector class of the source. -/
@[ext]
structure Vec3 where
  x : ℝ
  y : ℝ
  z : ℝ

/-- Vec3.dot. -/
noncomputable def Vec3.dot (a b : Vec3) : ℝ :=
  a.x * b.x + a.y * b.y + a.z * b.z

/-- Vec3.squaredLength: `Vec3.dot(this, this)`. -/
noncomputable def Vec3.squaredLength (v : Vec3) : ℝ :=
  Vec3.dot v v

/-- Vec3.length: `Math.sqrt(this.squaredLength())`. -/
noncomputable def Vec3.length (v : Vec3) : ℝ :=
  Real.sqrt v.squaredLength

/-- Vec3.scale. -/
noncomputable def Vec3.scale (a : Vec3) (b : ℝ) : Vec3 :=
  ⟨a.x * b, a.y * b, a.z * b⟩

/-- Vec3.normalize: `Vec3.scale(this, 1 / this.length())`. -/
noncomputable def Vec3.normalize (v : Vec3) : Vec3 :=
  Vec3.scale v (1 / v.length)

/-- Vec3.zero: `new Vec3(0, 0, 0)`. -/
noncomputable def Vec3.zero : Vec3 := ⟨0, 0, 0⟩

/-- Vec3.add. -/
noncomputable def Vec3.add (a b : Vec3) : Vec3 :=
  ⟨a.x + b.x, a.y + b.y, a.z + b.z⟩

/-- Vec3.subtract. -/
noncomputable def Vec3.subtract (a b : Vec3) : Vec3 :=
  ⟨a.x - b.x, a.y - b.y, a.z - b.z⟩

/-- Vec3.multiply (componentwise). -/
noncomputable def Vec3.multiply (a b : Vec3) : Vec3 :=
  ⟨a.x * b.x, a.y * b.y, a.z * b.z⟩

/-- Vec3.divide (componentwise). -/
noncomputable def Vec3.divide (a b : Vec3) : Vec3 :=
  ⟨a.x / b.x, a.y / b.y, a.z / b.z⟩

/-- Vec3.cross. -/
noncomputable def Vec3.cross (a b : Vec3) : Vec3 :=
  ⟨a.y * b.z - a.z * b.y, a.z * b.x - a.x * b.z, a.x * b.y - a.y * b.x⟩

/-- Vec3.pow (componentwise `Math.pow`, embedded as `Real.rpow`). -/
noncomputable def Vec3.pow (a : Vec3) (b : ℝ) : Vec3 :=
  ⟨a.x ^ b, a.y ^ b, a.z ^ b⟩

/-- Material: reflectance color and emitted radiance. -/
structure Material where
  color : Vec3
  emission : Vec3

/-- The payload of a JavaScript `Intersection` whose `isHit` is true.
`new Intersection(false)` is embedded as `none : Option Intersection`,
`new Intersection(true, t, n, m)` as `some ⟨t, n, m⟩`. -/
structure Intersection where
  distance : ℝ
  normal : Vec3
  material : Material

/-- Ray: origin and direction. -/
structure Ray where
  origin : Vec3
  direction : Vec3

/-- Plane shape: center point, normal, material. -/
structure Plane where
  center : Vec3
  normal : Vec3
  material : Material

/-- Sphere shape: center, radius, material. -/
structure Sphere where
  center : Vec3
  radius : ℝ
  material : Material

/-- Plane.intersectionWithRay. -/
noncomputable def Plane.intersectionWithRay (p : Plane) (ray : Ray) :
    Option Intersection :=
  let v := Vec3.subtract ray.origin p.center
  let vn := Vec3.dot v p.normal
  let dn := Vec3.dot ray.direction p.normal
  if 0 ≤ dn then none
  else
    let t := (vn / dn) * (-1)
    if t ≤ 0 then none
    else some ⟨t, p.normal, p.material⟩

/-- Sphere.createIntersection: hit point `p = origin + direction * t`,
normal `normalize(p - center)`. -/
noncomputable def Sphere.createIntersection (s : Sphere) (ray : Ray) (t : ℝ) :
    Option Intersection :=
  let p := Vec3.add ray.origin (Vec3.scale ray.direction t)
  let normal := (Vec3.subtract p s.center).normalize
  some ⟨t, normal, s.material⟩

/-- Sphere.intersectionWithRay. -/
noncomputable def Sphere.intersectionWithRay (s : Sphere) (ray : Ray) :
    Option Intersection :=
  let v := Vec3.subtract ray.origin s.center
  let b := Vec3.dot v ray.direction
  let c := v.squaredLength - s.radius ^ 2
  let d := b ^ 2 - c
  if d < 0 then none
  else
    let sqrtD := Real.sqrt d
    let t1 := -1 * b + sqrtD
    let t2 := -1 * b - sqrtD
    if 0 < t2 then s.createIntersection ray t2
    else if 0 < t1 then s.createIntersection ray t1
    else none

/-- The two shape variants the scene may contain. -/
inductive Shape where
  | plane (p : Plane)
  | sphere (s : Sphere)

/-- Dynamic dispatch of `intersectionWithRay` over the shape variants. -/
noncomputable def Shape.intersectionWithRay : Shape → Ray → Option Intersection
  | .plane p, ray => p.intersectionWithRay ray
  | .sphere s, ray => s.intersectionWithRay ray

/-- `Number.MAX_VALUE`, the largest finite double: `(2^53 - 1) * 2^971`. -/
noncomputable def maxValue : ℝ := (2 ^ 53 - 1) * 2 ^ 971

/-- Scene: ordered collection of shapes. -/
structure Scene where
  objects : List Shape

/-- Scene.intersectionWithRay: linear scan tracking
`nearestDistance` (initialized to `Number.MAX_VALUE`) and
`nearestIntersection` (initially `undefined`, i.e. `none`). -/
noncomputable def Scene.intersectionWithRay (scene : Scene) (ray : Ray) :
    Option Intersection :=
  (scene.objects.foldl
    (fun acc object =>
      match object.intersectionWithRay ray with
      | none => acc
      | some i => if i.distance < acc.1 then (i.distance, some i) else acc)
    (maxValue, (none : Option Intersection))).2

/-- Ray.randomReflectionFromNormal, with the two `Math.random()` draws
`u1`, `u2` passed explicitly. -/
noncomputable def Ray.randomReflectionFromNormal (normal : Vec3) (u1 u2 : ℝ) :
    Vec3 :=
  let theta := Real.arccos u1
  let phi := 2 * Real.pi * u2
  let randomDirection : Vec3 :=
    ⟨Real.sin theta * Real.cos phi, Real.cos theta,
     Real.sin theta * Real.sin phi⟩
  if Vec3.dot normal randomDirection < 0 then Vec3.scale randomDirection (-1)
  else randomDirection

/-- Ray.tracePathInScene.  `u d` is the pair of `Math.random()` draws used
by the single reflection sampled at recursion depth `d` (the recursion is a
single chain along which `depth` increases by 1, so indexing the random
stream by depth is faithful).  The first `ℕ` argument is fuel modelling the
JavaScript call stack: `none` means the recursion did not finish within
that many nested calls. -/
noncomputable def Ray.tracePathInScene (scene : Scene) (u : ℕ → ℝ × ℝ) :
    ℕ → Ray → ℕ → Option Vec3
  | 0, _, _ => none
  | fuel + 1, ray, depth =>
    if depth = 5 then some Vec3.zero
    else
      match scene.intersectionWithRay ray with
      | none => some Vec3.zero
      | some intersection =>
        let newRay : Ray :=
          ⟨Vec3.add ray.origin (Vec3.scale ray.direction intersection.distance),
           Ray.randomReflectionFromNormal intersection.normal
             (u depth).1 (u depth).2⟩
        let cosTheta := Vec3.dot newRay.direction intersection.normal
        let diffuse := Vec3.scale intersection.material.color (cosTheta * 2)
        (Ray.tracePathInScene scene u fuel newRay (depth + 1)).map
          (fun reflection =>
            Vec3.add intersection.material.emission
              (Vec3.multiply diffuse reflection))

/-- C1: calling the path integrator with depth exactly 5 returns the zero
radiance vector (0,0,0) without querying the scene (the result is the same
for every scene, random stream and ray). -/
theorem tracePath_depth_cap (scene : Scene) (u : ℕ → ℝ × ℝ) (ray : Ray)
    (fuel : ℕ) :
    Ray.tracePathInScene scene u (fuel + 1) ray 5 = some Vec3.zero := by
  simp [Ray.tracePathInScene]

/-- Camera of the progressive renderer: position, view direction, focal
length, film dots-per-meter, film speed, multisample count. -/
structure Camera where
  position : Vec3
  direction : Vec3
  focalLength : ℝ
  filmDPM : ℝ
  filmSpeed : ℝ
  multiSample : ℕ

/-- The image-plane sample points (the `splitted` vectors) generated by the
double loop of `Camera.raysForCoordinate`.  The JavaScript loops run
`ox` from `multiSample / -2` while `ox < multiSample / 2` in steps of 1,
which for a natural-number `multiSample` is exactly the values
`multiSample / -2 + jx` for `jx < multiSample` (and likewise `oy`). -/
noncomputable def Camera.samplePointsForCoordinate (c : Camera) (x y : ℝ) :
    List Vec3 :=
  let cell2center : Vec3 := ⟨x / c.filmDPM, y / c.filmDPM, c.focalLength⟩
  let offsetMin : ℝ := (c.multiSample : ℝ) / (-2)
  (List.range c.multiSample).flatMap fun (jx : ℕ) =>
    (List.range c.multiSample).map fun (jy : ℕ) =>
      Vec3.add cell2center
        (Vec3.scale ⟨offsetMin + jx, offsetMin + jy, 0⟩ (1 / c.filmDPM))

/-- Camera.raysForCoordinate: one ray per sample point, from the camera
position, with direction `(this.direction ⊙ splitted).normalize()`. -/
noncomputable def Camera.raysForCoordinate (c : Camera) (x y : ℝ) : List Ray :=
  (c.samplePointsForCoordinate x y).map fun splitted =>
    ⟨c.position, (Vec3.multiply c.direction splitted).normalize⟩

/-- The accumulation state of `Renderer`: the running sample count and the
per-pixel mean buffer `data` (the canvas `width * height` array, kept here
as a flat list). -/
structure Accumulator where
  sampleCount : ℕ
  data : List Vec3

/-- The `Renderer` constructor state: `sampleCount = 0` and a buffer of
`width * height` zero vectors. -/
noncomputable def Accumulator.init (size : ℕ) : Accumulator :=
  ⟨0, List.replicate size Vec3.zero⟩

/-- The merge loop at the end of `Renderer.update`: increment
`sampleCount`, then for every pixel
`data[i] = newFrame[i] * (1/sampleCount) + data[i] * (1 - 1/sampleCount)`. -/
noncomputable def Accumulator.mergeFrame (a : Accumulator) (frame : List Vec3) :
    Accumulator :=
  let n := a.sampleCount + 1
  ⟨n,
   List.zipWith
     (fun newColor oldColor =>
       Vec3.add (Vec3.scale newColor (1 / (n : ℝ)))
         (Vec3.scale oldColor (1 - 1 / (n : ℝ))))
     frame a.data⟩

/-- The inner state of the `.reduce((prev, next, i) => ...)` call of
`Renderer.update`: `prev` is the running value and `i` the index of the
next list element. -/
noncomputable def reduceColorGo (prev : Vec3) (i : ℕ) : List Vec3 → Vec3
  | [] => prev
  | next :: rest =>
    reduceColorGo
      (Vec3.add (Vec3.scale next (1 / ((i : ℝ) + 1)))
        (Vec3.scale prev (1 - 1 / ((i : ℝ) + 1))))
      (i + 1) rest

/-- The `.reduce` averaging step of `Renderer.update`, applied to the list
of per-ray radiances of one pixel.  JavaScript `reduce` without an initial
value starts from the head element and feeds the element at index `i`
with `sampleCount = i + 1`; it throws on an empty list, which never occurs
in the renderer (modelled as `Vec3.zero` here). -/
noncomputable def reduceColor : List Vec3 → Vec3
  | [] => Vec3.zero
  | next :: rest => reduceColorGo next 1 rest

/-- Componentwise sum of a list of vectors (used to state mean values). -/
noncomputable def vsum (l : List Vec3) : Vec3 :=
  l.foldr Vec3.add Vec3.zero

/-- `gammaCorrectionPower = 1 / 2.2` from `Renderer.draw`. -/
noncomputable def gammaCorrectionPower : ℝ := 1 / 2.2

/-- The ECMAScript `ToUint8Clamp` conversion applied when a number is
stored into the `Uint8ClampedArray` backing `ImageData.data`: clamp to
`[0, 255]` and round to the nearest integer, ties to even. -/
noncomputable def toUint8Clamp (v : ℝ) : ℕ :=
  if v ≤ 0 then 0
  else if 255 ≤ v then 255
  else
    let f : ℤ := ⌊v⌋
    if v < f + 1 / 2 then f.toNat
    else if (f : ℝ) + 1 / 2 < v then f.toNat + 1
    else if f % 2 = 0 then f.toNat else f.toNat + 1

/-- One pixel of `Renderer.draw`: gamma-correct the accumulated radiance
with exponent `1 / 2.2`, multiply each channel by 255 and store the three
channels plus an alpha of 255 into the clamped image buffer. -/
noncomputable def tonemapPixel (c : Vec3) : ℕ × ℕ × ℕ × ℕ :=
  let corrected := Vec3.pow c gammaCorrectionPower
  (toUint8Clamp (corrected.x * 255), toUint8Clamp (corrected.y * 255),
   toUint8Clamp (corrected.z * 255), toUint8Clamp 255)

/-- The clamp the spec prescribes for the tonemap output range. -/
noncomputable def clamp255 (v : ℝ) : ℝ := max 0 (min v 255)

/-- The white material of the reference scene
(`new Material(new Vec3(1, 1, 1), new Vec3(0, 0, 0))`). -/
noncomputable def whiteMaterial : Material := ⟨⟨1, 1, 1⟩, ⟨0, 0, 0⟩⟩

/-- A vector of unit squared length has unit length. -/
lemma Vec3.length_eq_one_of_squaredLength (v : Vec3)
    (h : v.squaredLength = 1) : v.length = 1 := by
  rw [Vec3.length, h, Real.sqrt_one]

/-- C9: the direction returned by `randomReflectionFromNormal` lies in the
closed hemisphere the normal points into (`dot(n, d) ≥ 0`) and has length
exactly 1 in exact real arithmetic, for any uniform samples
`u1, u2 ∈ [0, 1)`. -/
theorem randomReflection_hemisphere_unit (n : Vec3) (u1 u2 : ℝ)
    (h1 : 0 ≤ u1) (h2 : u1 < 1) (h3 : 0 ≤ u2) (h4 : u2 < 1) :
    0 ≤ Vec3.dot n (Ray.randomReflectionFromNormal n u1 u2) ∧
      (Ray.randomReflectionFromNormal n u1 u2).length = 1 := by
  have hφ := Real.sin_sq_add_cos_sq (2 * Real.pi * u2)
  have hθ := Real.sin_sq_add_cos_sq (Real.arccos u1)
  simp only [Ray.randomReflectionFromNormal]
  split_ifs with hneg
  · constructor
    · have hd : Vec3.dot n
          (Vec3.scale
            ⟨Real.sin (Real.arccos u1) * Real.cos (2 * Real.pi * u2),
             Real.cos (Real.arccos u1),
             Real.sin (Real.arccos u1) * Real.sin (2 * Real.pi * u2)⟩ (-1)) =
          -Vec3.dot n
            ⟨Real.sin (Real.arccos u1) * Real.cos (2 * Real.pi * u2),
             Real.cos (Real.arccos u1),
             Real.sin (Real.arccos u1) * Real.sin (2 * Real.pi * u2)⟩ := by
        simp [Vec3.dot, Vec3.scale]; ring
      rw [hd]
      linarith
    · apply Vec3.length_eq_one_of_squaredLength
      simp only [Vec3.squaredLength, Vec3.dot, Vec3.scale]
      nlinarith [hφ, hθ]
  · constructor
    · exact le_of_not_lt hneg
    · apply Vec3.length_eq_one_of_squaredLength
      simp only [Vec3.squaredLength, Vec3.dot]
      nlinarith [hφ, hθ]

/-- Witness for C9 at the normal `(0, 1, 0)` and samples `u1 = 1/2`,
`u2 = 0`. -/
theorem randomReflection_hemisphere_unit_witness :
    0 ≤ Vec3.dot ⟨0, 1, 0⟩
        (Ray.randomReflectionFromNormal ⟨0, 1, 0⟩ (1 / 2) 0) ∧
      (Ray.randomReflectionFromNormal ⟨0, 1, 0⟩ (1 / 2) 0).length = 1 :=
  randomReflection_hemisphere_unit ⟨0, 1, 0⟩ (1 / 2) 0 (by norm_num)
    (by norm_num) (by norm_num) (by norm_num)

/-- Unfolding of `Plane.intersectionWithRay` as nested conditionals. -/
lemma Plane.intersectionWithRay_eq (p : Plane) (ray : Ray) :
    p.intersectionWithRay ray =
      if 0 ≤ Vec3.dot ray.direction p.normal then none
      else
        if (Vec3.dot (Vec3.subtract ray.origin p.center) p.normal /
              Vec3.dot ray.direction p.normal) * (-1) ≤ 0 then none
        else
          some ⟨(Vec3.dot (Vec3.subtract ray.origin p.center) p.normal /
                   Vec3.dot ray.direction p.normal) * (-1),
                p.normal, p.material⟩ := rfl

/-- C4: the plane test rejects when `dot(direction, normal) ≥ 0`, otherwise
computes `t = -dot(origin - center, normal) / dot(direction, normal)`,
rejects when `t ≤ 0`, and on acceptance reports distance `t`, the plane's
own normal and the plane's material; the plane `normal = (0,1,0)` through
the origin probed from `(0,5,0)` along `(0,-1,0)` hits at distance 5 with
normal `(0,1,0)`. -/
theorem plane_intersection_spec (p : Plane) (ray : Ray) (m : Material)
    (hn : p.normal.length = 1) :
    (0 ≤ Vec3.dot ray.direction p.normal →
      p.intersectionWithRay ray = none) ∧
    (Vec3.dot ray.direction p.normal < 0 →
      ((-Vec3.dot (Vec3.subtract ray.origin p.center) p.normal) /
            Vec3.dot ray.direction p.normal ≤ 0 →
        p.intersectionWithRay ray = none) ∧
      (0 < (-Vec3.dot (Vec3.subtract ray.origin p.center) p.normal) /
            Vec3.dot ray.direction p.normal →
        p.intersectionWithRay ray =
          some ⟨(-Vec3.dot (Vec3.subtract ray.origin p.center) p.normal) /
                  Vec3.dot ray.direction p.normal,
                p.normal, p.material⟩)) ∧
    (Plane.mk ⟨0, 0, 0⟩ ⟨0, 1, 0⟩ m).intersectionWithRay
        ⟨⟨0, 5, 0⟩, ⟨0, -1, 0⟩⟩ = some ⟨5, ⟨0, 1, 0⟩, m⟩ := by
  have key : (Vec3.dot (Vec3.subtract ray.origin p.center) p.normal /
        Vec3.dot ray.direction p.normal) * (-1) =
      (-Vec3.dot (Vec3.subtract ray.origin p.center) p.normal) /
        Vec3.dot ray.direction p.normal := by ring
  refine ⟨fun h => ?_, fun h => ⟨fun ht => ?_, fun ht => ?_⟩, ?_⟩
  · rw [Plane.intersectionWithRay_eq, if_pos h]
  · rw [Plane.intersectionWithRay_eq, if_neg (not_le.mpr h),
      if_pos (by rw [key]; exact ht)]
  · rw [Plane.intersectionWithRay_eq, if_neg (not_le.mpr h),
      if_neg (by rw [key]; exact not_le.mpr ht), key]
  · rw [Plane.intersectionWithRay_eq]
    norm_num [Vec3.dot, Vec3.subtract]

/-- Witness for C4: the concrete plane/ray example, obtained from the
theorem at the unit normal `(0, 1, 0)`. -/
theorem plane_intersection_spec_witness :
    (Plane.mk ⟨0, 0, 0⟩ ⟨0, 1, 0⟩ whiteMaterial).intersectionWithRay
        ⟨⟨0, 5, 0⟩, ⟨0, -1, 0⟩⟩ = some ⟨5, ⟨0, 1, 0⟩, whiteMaterial⟩ :=
  (plane_intersection_spec (Plane.mk ⟨0, 0, 0⟩ ⟨0, 1, 0⟩ whiteMaterial)
    ⟨⟨0, 5, 0⟩, ⟨0, -1, 0⟩⟩ whiteMaterial
    (by norm_num [Vec3.length, Vec3.squaredLength, Vec3.dot,
      Real.sqrt_one])).2.2

/-- C3: the sphere test computes `b = dot(origin - center, direction)`,
`d = b^2 - (|origin - center|^2 - radius^2)`, rejects when `d < 0`, selects
`t2 = -b - sqrt d` if positive, else `t1 = -b + sqrt d` if positive, else
rejects, reporting normal `normalize(hitPoint - center)`; the unit sphere
probed from `(0,0,-5)` along `(0,0,1)` hits at distance 4 with normal
`(0,0,-1)`, and a ray starting inside the sphere returns the positive exit
root `t1`. -/
theorem sphere_intersection_spec (s : Sphere) (ray : Ray) (m : Material)
    (hr : 0 < s.radius) (hdir : ray.direction.length = 1) :
    (∀ b d : ℝ,
      b = Vec3.dot (Vec3.subtract ray.origin s.center) ray.direction →
      d = b ^ 2 -
          ((Vec3.subtract ray.origin s.center).squaredLength -
            s.radius ^ 2) →
      (d < 0 → s.intersectionWithRay ray = none) ∧
      (0 ≤ d →
        (0 < -b - Real.sqrt d →
          s.intersectionWithRay ray =
            some ⟨-b - Real.sqrt d,
              (Vec3.subtract
                (Vec3.add ray.origin
                  (Vec3.scale ray.direction (-b - Real.sqrt d)))
                s.center).normalize,
              s.material⟩) ∧
        (-b - Real.sqrt d ≤ 0 → 0 < -b + Real.sqrt d →
          s.intersectionWithRay ray =
            some ⟨-b + Real.sqrt d,
              (Vec3.subtract
                (Vec3.add ray.origin
                  (Vec3.scale ray.direction (-b + Real.sqrt d)))
                s.center).normalize,
              s.material⟩) ∧
        (-b - Real.sqrt d ≤ 0 → -b + Real.sqrt d ≤ 0 →
          s.intersectionWithRay ray = none))) ∧
    (Sphere.mk ⟨0, 0, 0⟩ 1 m).intersectionWithRay ⟨⟨0, 0, -5⟩, ⟨0, 0, 1⟩⟩ =
      some ⟨4, ⟨0, 0, -1⟩, m⟩ ∧
    (Sphere.mk ⟨0, 0, 0⟩ 1 m).intersectionWithRay ⟨⟨0, 0, 0⟩, ⟨0, 0, 1⟩⟩ =
      some ⟨1, ⟨0, 0, 1⟩, m⟩ := by
  refine ⟨?_, ?_, ?_⟩
  · rintro b d rfl rfl
    set bv : ℝ :=
      Vec3.dot (Vec3.subtract ray.origin s.center) ray.direction with hbv
    set dv : ℝ :=
      bv ^ 2 -
        ((Vec3.subtract ray.origin s.center).squaredLength -
          s.radius ^ 2) with hdv
    have e2 : -1 * bv - Real.sqrt dv = -bv - Real.sqrt dv := by ring
    have e1 : -1 * bv + Real.sqrt dv = -bv + Real.sqrt dv := by ring
    refine ⟨fun h => ?_, fun h0 => ⟨fun h2 => ?_, fun h2 h1 => ?_,
      fun h2 h1 => ?_⟩⟩
    · simp only [Sphere.intersectionWithRay]
      rw [if_pos h]
    · simp only [Sphere.intersectionWithRay]
      rw [if_neg (not_lt.mpr h0), e2, if_pos h2]
      simp only [Sphere.createIntersection]
    · simp only [Sphere.intersectionWithRay]
      rw [if_neg (not_lt.mpr h0), e2, if_neg (not_lt.mpr h2), e1, if_pos h1]
      simp only [Sphere.createIntersection]
    · simp only [Sphere.intersectionWithRay]
      rw [if_neg (not_lt.mpr h0), e2, if_neg (not_lt.mpr h2), e1,
        if_neg (not_lt.mpr h1)]
  · norm_num [Sphere.intersectionWithRay, Sphere.createIntersection,
      Vec3.dot, Vec3.subtract, Vec3.squaredLength, Vec3.add, Vec3.scale,
      Vec3.normalize, Vec3.length, Real.sqrt_one]
  · norm_num [Sphere.intersectionWithRay, Sphere.createIntersection,
      Vec3.dot, Vec3.subtract, Vec3.squaredLength, Vec3.add, Vec3.scale,
      Vec3.normalize, Vec3.length, Real.sqrt_one]

/-- Witness for C3: the concrete unit-sphere example, obtained from the
theorem at radius 1 and the unit direction `(0, 0, 1)`. -/
theorem sphere_intersection_spec_witness :
    (Sphere.mk ⟨0, 0, 0⟩ 1 whiteMaterial).intersectionWithRay
        ⟨⟨0, 0, -5⟩, ⟨0, 0, 1⟩⟩ = some ⟨4, ⟨0, 0, -1⟩, whiteMaterial⟩ :=
  (sphere_intersection_spec (Sphere.mk ⟨0, 0, 0⟩ 1 whiteMaterial)
    ⟨⟨0, 0, -5⟩, ⟨0, 0, 1⟩⟩ whiteMaterial (by norm_num)
    (by norm_num [Vec3.length, Vec3.squaredLength, Vec3.dot,
      Real.sqrt_one])).2.1

/-- C6: below the bounce cap, on a hit the integrator returns exactly
`emission + (color * (2 * dot(w, hitNormal))) ⊙ trace(bounceRay, depth+1)`
where `w` is the sampled bounce direction and the bounce ray starts at
`origin + direction * hitDistance`; on a miss (in particular for the empty
scene) it returns the zero vector. -/
theorem tracePath_bounce_step (scene : Scene) (u : ℕ → ℝ × ℝ) (fuel : ℕ)
    (ray : Ray) (depth : ℕ) (hd : depth < 5) :
    (scene.intersectionWithRay ray = none →
      Ray.tracePathInScene scene u (fuel + 1) ray depth = some Vec3.zero) ∧
    (∀ i r,
      scene.intersectionWithRay ray = some i →
      Ray.tracePathInScene scene u fuel
        ⟨Vec3.add ray.origin (Vec3.scale ray.direction i.distance),
         Ray.randomReflectionFromNormal i.normal (u depth).1 (u depth).2⟩
        (depth + 1) = some r →
      Ray.tracePathInScene scene u (fuel + 1) ray depth =
        some (Vec3.add i.material.emission
          (Vec3.multiply
            (Vec3.scale i.material.color
              (2 * Vec3.dot
                (Ray.randomReflectionFromNormal i.normal
                  (u depth).1 (u depth).2)
                i.normal))
            r))) ∧
    (Scene.mk []).intersectionWithRay ray = none := by
  have hne : depth ≠ 5 := Nat.ne_of_lt hd
  refine ⟨fun h => ?_, fun i r hi hr => ?_, ?_⟩
  · simp [Ray.tracePathInScene, hne, h]
  · simp only [Ray.tracePathInScene]
    rw [if_neg hne, hi]
    simp only [hr, Option.map_some']
    congr 1
    ext <;> simp only [Vec3.add, Vec3.multiply, Vec3.scale] <;> ring
  · simp [Scene.intersectionWithRay]

/-- Witness for C6 at depth 0 with the empty scene: the miss branch
returns the zero vector. -/
theorem tracePath_bounce_step_witness :
    Ray.tracePathInScene (Scene.mk []) (fun _ => (0, 0)) 1
        ⟨⟨0, 0, 0⟩, ⟨0, 0, 1⟩⟩ 0 = some Vec3.zero := by
  have h := tracePath_bounce_step (Scene.mk []) (fun _ => (0, 0)) 0
    ⟨⟨0, 0, 0⟩, ⟨0, 0, 1⟩⟩ 0 (by norm_num)
  exact h.1 h.2.2

/-- Single-step unfolding of the integrator at positive fuel. -/
lemma tracePath_succ (scene : Scene) (u : ℕ → ℝ × ℝ) (fuel : ℕ) (ray : Ray)
    (depth : ℕ) :
    Ray.tracePathInScene scene u (fuel + 1) ray depth =
      if depth = 5 then some Vec3.zero
      else
        match scene.intersectionWithRay ray with
        | none => some Vec3.zero
        | some i =>
          (Ray.tracePathInScene scene u fuel
            ⟨Vec3.add ray.origin (Vec3.scale ray.direction i.distance),
             Ray.randomReflectionFromNormal i.normal
               (u depth).1 (u depth).2⟩
            (depth + 1)).map
            (fun reflection =>
              Vec3.add i.material.emission
                (Vec3.multiply
                  (Vec3.scale i.material.color
                    (Vec3.dot
                      (Ray.randomReflectionFromNormal i.normal
                        (u depth).1 (u depth).2)
                      i.normal * 2))
                  reflection)) := rfl

/-- Unfolding of the integrator below the cap on a miss. -/
lemma tracePath_succ_miss (scene : Scene) (u : ℕ → ℝ × ℝ) (fuel : ℕ)
    (ray : Ray) (depth : ℕ) (h5 : depth ≠ 5)
    (hhit : scene.intersectionWithRay ray = none) :
    Ray.tracePathInScene scene u (fuel + 1) ray depth = some Vec3.zero := by
  rw [tracePath_succ, if_neg h5, hhit]

/-- Unfolding of the integrator below the cap on a hit. -/
lemma tracePath_succ_hit (scene : Scene) (u : ℕ → ℝ × ℝ) (fuel : ℕ)
    (ray : Ray) (depth : ℕ) (i : Intersection) (h5 : depth ≠ 5)
    (hhit : scene.intersectionWithRay ray = some i) :
    Ray.tracePathInScene scene u (fuel + 1) ray depth =
      (Ray.tracePathInScene scene u fuel
        ⟨Vec3.add ray.origin (Vec3.scale ray.direction i.distance),
         Ray.randomReflectionFromNormal i.normal (u depth).1 (u depth).2⟩
        (depth + 1)).map
        (fun reflection =>
          Vec3.add i.material.emission
            (Vec3.multiply
              (Vec3.scale i.material.color
                (Vec3.dot
                  (Ray.randomReflectionFromNormal i.normal
                    (u depth).1 (u depth).2)
                  i.normal * 2))
              reflection)) := by
  rw [tracePath_succ, if_neg h5, hhit]

/-- Fuel monotonicity: a returned radiance is stable under extra fuel. -/
lemma tracePath_mono (scene : Scene) (u : ℕ → ℝ × ℝ) :
    ∀ (f1 f2 : ℕ) (ray : Ray) (depth : ℕ) (v : Vec3), f1 ≤ f2 →
      Ray.tracePathInScene scene u f1 ray depth = some v →
      Ray.tracePathInScene scene u f2 ray depth = some v := by
  intro f1
  induction f1 with
  | zero =>
    intro f2 ray depth v _ hv
    simp [Ray.tracePathInScene] at hv
  | succ f ih =>
    intro f2 ray depth v hle hv
    obtain ⟨g, rfl⟩ : ∃ g, f2 = g + 1 := ⟨f2 - 1, by omega⟩
    by_cases h5 : depth = 5
    · rw [tracePath_succ, if_pos h5] at hv ⊢
      exact hv
    · rcases hhit : scene.intersectionWithRay ray with _ | i
      · rw [tracePath_succ_miss scene u f ray depth h5 hhit] at hv
        rw [tracePath_succ_miss scene u g ray depth h5 hhit]
        exact hv
      · rw [tracePath_succ_hit scene u f ray depth i h5 hhit] at hv
        rw [tracePath_succ_hit scene u g ray depth i h5 hhit]
        rcases hrec : Ray.tracePathInScene scene u f
            ⟨Vec3.add ray.origin (Vec3.scale ray.direction i.distance),
             Ray.randomReflectionFromNormal i.normal
               (u depth).1 (u depth).2⟩
            (depth + 1) with _ | r
        · rw [hrec] at hv
          simp at hv
        · rw [hrec] at hv
          rw [ih g _ _ _ (by omega) hrec]
          exact hv

/-- With fuel `k + 1` the integrator returns whenever `5 - depth ≤ k` and
`depth ≤ 5`. -/
lemma tracePath_returns (scene : Scene) (u : ℕ → ℝ × ℝ) :
    ∀ (k : ℕ) (ray : Ray) (depth : ℕ), 5 ≤ depth + k → depth ≤ 5 →
      ∃ v, Ray.tracePathInScene scene u (k + 1) ray depth = some v := by
  intro k
  induction k with
  | zero =>
    intro ray depth h1 h2
    have h5 : depth = 5 := by omega
    subst h5
    exact ⟨Vec3.zero, by rw [tracePath_succ, if_pos rfl]⟩
  | succ k ih =>
    intro ray depth h1 h2
    by_cases h5 : depth = 5
    · subst h5
      exact ⟨Vec3.zero, by rw [tracePath_succ, if_pos rfl]⟩
    · rcases hhit : scene.intersectionWithRay ray with _ | i
      · exact ⟨Vec3.zero, tracePath_succ_miss scene u (k + 1) ray depth h5 hhit⟩
      · obtain ⟨r, hr⟩ := ih
          ⟨Vec3.add ray.origin (Vec3.scale ray.direction i.distance),
           Ray.randomReflectionFromNormal i.normal (u depth).1 (u depth).2⟩
          (depth + 1) (by omega) (by omega)
        refine ⟨Vec3.add i.material.emission
          (Vec3.multiply
            (Vec3.scale i.material.color
              (Vec3.dot
                (Ray.randomReflectionFromNormal i.normal
                  (u depth).1 (u depth).2)
                i.normal * 2))
            r), ?_⟩
        rw [tracePath_succ_hit scene u (k + 1) ray depth i h5 hhit, hr]
        rfl

/-- A two-plane scene (floor at y = 0 facing up, ceiling at y = 4 facing
down) in which, with both `Math.random()` draws constantly 1 and 0, a
downward ray from `(0, 2, 0)` keeps bouncing between the planes: every
recursion level hits. -/
noncomputable def pingScene : Scene :=
  ⟨[Shape.plane ⟨⟨0, 0, 0⟩, ⟨0, 1, 0⟩, whiteMaterial⟩,
    Shape.plane ⟨⟨0, 4, 0⟩, ⟨0, -1, 0⟩, whiteMaterial⟩]⟩

/-- The constant random stream used in the bouncing scene. -/
noncomputable def pingU : ℕ → ℝ × ℝ := fun _ => (1, 0)

/-- In `pingScene`, the initial downward ray hits the floor at distance 2. -/
lemma pingScene_hit_start :
    pingScene.intersectionWithRay ⟨⟨0, 2, 0⟩, ⟨0, -1, 0⟩⟩ =
      some ⟨2, ⟨0, 1, 0⟩, whiteMaterial⟩ := by
  norm_num [pingScene, Scene.intersectionWithRay, Shape.intersectionWithRay,
    Plane.intersectionWithRay, Vec3.dot, Vec3.subtract, maxValue]

/-- In `pingScene`, the upward ray from the floor hits the ceiling at
distance 4. -/
lemma pingScene_hit_up :
    pingScene.intersectionWithRay ⟨⟨0, 0, 0⟩, ⟨0, 1, 0⟩⟩ =
      some ⟨4, ⟨0, -1, 0⟩, whiteMaterial⟩ := by
  norm_num [pingScene, Scene.intersectionWithRay, Shape.intersectionWithRay,
    Plane.intersectionWithRay, Vec3.dot, Vec3.subtract, maxValue]

/-- In `pingScene`, the downward ray from the ceiling hits the floor at
distance 4. -/
lemma pingScene_hit_down :
    pingScene.intersectionWithRay ⟨⟨0, 4, 0⟩, ⟨0, -1, 0⟩⟩ =
      some ⟨4, ⟨0, 1, 0⟩, whiteMaterial⟩ := by
  norm_num [pingScene, Scene.intersectionWithRay, Shape.intersectionWithRay,
    Plane.intersectionWithRay, Vec3.dot, Vec3.subtract, maxValue]

/-- With draws `u1 = 1`, `u2 = 0`, the sampled reflection from the upward
normal is straight up. -/
lemma reflect_up :
    Ray.randomReflectionFromNormal ⟨0, 1, 0⟩ 1 0 = ⟨0, 1, 0⟩ := by
  norm_num [Ray.randomReflectionFromNormal, Real.arccos_one, Vec3.dot,
    Vec3.scale]

/-- With draws `u1 = 1`, `u2 = 0`, the sampled reflection from the downward
normal is straight down. -/
lemma reflect_down :
    Ray.randomReflectionFromNormal ⟨0, -1, 0⟩ 1 0 = ⟨0, -1, 0⟩ := by
  norm_num [Ray.randomReflectionFromNormal, Real.arccos_one, Vec3.dot,
    Vec3.scale]

/-- The bounce ray cast from the floor hit of the upward ray. -/
lemma ping_bounce_up (depth : ℕ) :
    (⟨Vec3.add ⟨0, 0, 0⟩ (Vec3.scale ⟨0, 1, 0⟩ 4),
      Ray.randomReflectionFromNormal ⟨0, -1, 0⟩
        (pingU depth).1 (pingU depth).2⟩ : Ray) =
      ⟨⟨0, 4, 0⟩, ⟨0, -1, 0⟩⟩ := by
  have h : (pingU depth) = ((1 : ℝ), (0 : ℝ)) := rfl
  rw [h]
  norm_num [Vec3.add, Vec3.scale, reflect_down]

/-- The bounce ray cast from the ceiling hit of the downward ray. -/
lemma ping_bounce_down (depth : ℕ) :
    (⟨Vec3.add ⟨0, 4, 0⟩ (Vec3.scale ⟨0, -1, 0⟩ 4),
      Ray.randomReflectionFromNormal ⟨0, 1, 0⟩
        (pingU depth).1 (pingU depth).2⟩ : Ray) =
      ⟨⟨0, 0, 0⟩, ⟨0, 1, 0⟩⟩ := by
  have h : (pingU depth) = ((1 : ℝ), (0 : ℝ)) := rfl
  rw [h]
  norm_num [Vec3.add, Vec3.scale, reflect_up]

/-- The bounce ray cast from the floor hit of the initial ray. -/
lemma ping_bounce_start (depth : ℕ) :
    (⟨Vec3.add ⟨0, 2, 0⟩ (Vec3.scale ⟨0, -1, 0⟩ 2),
      Ray.randomReflectionFromNormal ⟨0, 1, 0⟩
        (pingU depth).1 (pingU depth).2⟩ : Ray) =
      ⟨⟨0, 0, 0⟩, ⟨0, 1, 0⟩⟩ := by
  have h : (pingU depth) = ((1 : ℝ), (0 : ℝ)) := rfl
  rw [h]
  norm_num [Vec3.add, Vec3.scale, reflect_up]

/-- One bounce of the upward ray in the bouncing scene, result form. -/
lemma ping_step_upward (fuel depth : ℕ) (h5 : depth ≠ 5) :
    Ray.tracePathInScene pingScene pingU (fuel + 1)
        ⟨⟨0, 0, 0⟩, ⟨0, 1, 0⟩⟩ depth =
      (Ray.tracePathInScene pingScene pingU fuel
        ⟨⟨0, 4, 0⟩, ⟨0, -1, 0⟩⟩ (depth + 1)).map
        (fun reflection =>
          Vec3.add whiteMaterial.emission
            (Vec3.multiply
              (Vec3.scale whiteMaterial.color
                (Vec3.dot
                  (Ray.randomReflectionFromNormal ⟨0, -1, 0⟩
                    (pingU depth).1 (pingU depth).2)
                  ⟨0, -1, 0⟩ * 2))
              reflection)) := by
  rw [tracePath_succ_hit pingScene pingU fuel _ depth _ h5 pingScene_hit_up]
  rw [ping_bounce_up depth]

/-- One bounce of the downward ray in the bouncing scene, result form. -/
lemma ping_step_downward (fuel depth : ℕ) (h5 : depth ≠ 5) :
    Ray.tracePathInScene pingScene pingU (fuel + 1)
        ⟨⟨0, 4, 0⟩, ⟨0, -1, 0⟩⟩ depth =
      (Ray.tracePathInScene pingScene pingU fuel
        ⟨⟨0, 0, 0⟩, ⟨0, 1, 0⟩⟩ (depth + 1)).map
        (fun reflection =>
          Vec3.add whiteMaterial.emission
            (Vec3.multiply
              (Vec3.scale whiteMaterial.color
                (Vec3.dot
                  (Ray.randomReflectionFromNormal ⟨0, 1, 0⟩
                    (pingU depth).1 (pingU depth).2)
                  ⟨0, 1, 0⟩ * 2))
              reflection)) := by
  rw [tracePath_succ_hit pingScene pingU fuel _ depth _ h5 pingScene_hit_down]
  rw [ping_bounce_down depth]

/-- The first bounce of the initial ray in the bouncing scene. -/
lemma ping_step_start (fuel : ℕ) :
    Ray.tracePathInScene pingScene pingU (fuel + 1)
        ⟨⟨0, 2, 0⟩, ⟨0, -1, 0⟩⟩ 0 =
      (Ray.tracePathInScene pingScene pingU fuel
        ⟨⟨0, 0, 0⟩, ⟨0, 1, 0⟩⟩ 1).map
        (fun reflection =>
          Vec3.add whiteMaterial.emission
            (Vec3.multiply
              (Vec3.scale whiteMaterial.color
                (Vec3.dot
                  (Ray.randomReflectionFromNormal ⟨0, 1, 0⟩
                    (pingU 0).1 (pingU 0).2)
                  ⟨0, 1, 0⟩ * 2))
              reflection)) := by
  rw [tracePath_succ_hit pingScene pingU fuel _ 0 _ (by norm_num)
    pingScene_hit_start]
  rw [ping_bounce_start 0]

/-- In the bouncing scene from depth 0, five nested calls do not suffice:
every level up to the cap hits a plane. -/
lemma ping_five_none :
    Ray.tracePathInScene pingScene pingU 5 ⟨⟨0, 2, 0⟩, ⟨0, -1, 0⟩⟩ 0 =
      none := by
  have h0 : Ray.tracePathInScene pingScene pingU 0
      ⟨⟨0, 0, 0⟩, ⟨0, 1, 0⟩⟩ 5 = none := rfl
  have h1 : Ray.tracePathInScene pingScene pingU 1
      ⟨⟨0, 4, 0⟩, ⟨0, -1, 0⟩⟩ 4 = none := by
    rw [ping_step_downward 0 4 (by norm_num)]
    norm_num [h0]
  have h2 : Ray.tracePathInScene pingScene pingU 2
      ⟨⟨0, 0, 0⟩, ⟨0, 1, 0⟩⟩ 3 = none := by
    rw [ping_step_upward 1 3 (by norm_num)]
    norm_num [h1]
  have h3 : Ray.tracePathInScene pingScene pingU 3
      ⟨⟨0, 4, 0⟩, ⟨0, -1, 0⟩⟩ 2 = none := by
    rw [ping_step_downward 2 2 (by norm_num)]
    norm_num [h2]
  have h4 : Ray.tracePathInScene pingScene pingU 4
      ⟨⟨0, 0, 0⟩, ⟨0, 1, 0⟩⟩ 1 = none := by
    rw [ping_step_upward 3 1 (by norm_num)]
    norm_num [h3]
  show Ray.tracePathInScene pingScene pingU (4 + 1)
      ⟨⟨0, 2, 0⟩, ⟨0, -1, 0⟩⟩ 0 = none
  rw [ping_step_start 4]
  norm_num [h4]

/-- In the bouncing scene from depth 0, six nested calls reach the bounce
cap and return (the cap contributes zero radiance, and the white material
emits nothing, so the total is zero). -/
lemma ping_six_zero :
    Ray.tracePathInScene pingScene pingU 6 ⟨⟨0, 2, 0⟩, ⟨0, -1, 0⟩⟩ 0 =
      some Vec3.zero := by
  have vz : ∀ s : ℝ,
      Vec3.add whiteMaterial.emission
        (Vec3.multiply (Vec3.scale whiteMaterial.color s) Vec3.zero) =
        Vec3.zero := by
    intro s
    norm_num [whiteMaterial, Vec3.add, Vec3.multiply, Vec3.scale, Vec3.zero]
  have g0 : Ray.tracePathInScene pingScene pingU 1
      ⟨⟨0, 0, 0⟩, ⟨0, 1, 0⟩⟩ 5 = some Vec3.zero := by
    show Ray.tracePathInScene pingScene pingU (0 + 1)
        ⟨⟨0, 0, 0⟩, ⟨0, 1, 0⟩⟩ 5 = some Vec3.zero
    rw [tracePath_succ, if_pos rfl]
  have g1 : Ray.tracePathInScene pingScene pingU 2
      ⟨⟨0, 4, 0⟩, ⟨0, -1, 0⟩⟩ 4 = some Vec3.zero := by
    rw [ping_step_downward 1 4 (by norm_num)]
    norm_num [g0, vz]
  have g2 : Ray.tracePathInScene pingScene pingU 3
      ⟨⟨0, 0, 0⟩, ⟨0, 1, 0⟩⟩ 3 = some Vec3.zero := by
    rw [ping_step_upward 2 3 (by norm_num)]
    norm_num [g1, vz]
  have g3 : Ray.tracePathInScene pingScene pingU 4
      ⟨⟨0, 4, 0⟩, ⟨0, -1, 0⟩⟩ 2 = some Vec3.zero := by
    rw [ping_step_downward 3 2 (by norm_num)]
    norm_num [g2, vz]
  have g4 : Ray.tracePathInScene pingScene pingU 5
      ⟨⟨0, 0, 0⟩, ⟨0, 1, 0⟩⟩ 1 = some Vec3.zero := by
    rw [ping_step_upward 4 1 (by norm_num)]
    norm_num [g3, vz]
  show Ray.tracePathInScene pingScene pingU (5 + 1)
      ⟨⟨0, 2, 0⟩, ⟨0, -1, 0⟩⟩ 0 = some Vec3.zero
  rw [ping_step_start 5]
  norm_num [g4, vz]

/-- C10: for every starting depth `d ≤ 5` the integrator terminates within
`6 - d` nested calls (so at most `5 - d` recursive bounces) with a value
stable under any larger call-stack budget; and no bound other than the
`depth = 5` guard exists: in the two-plane bouncing scene a trace from
depth 0 really consumes all five bounces (5 nested calls do not suffice,
6 do). -/
theorem tracePath_terminates :
    (∀ (scene : Scene) (u : ℕ → ℝ × ℝ) (ray : Ray) (depth : ℕ),
      depth ≤ 5 →
      ∃ v, Ray.tracePathInScene scene u (6 - depth) ray depth = some v ∧
        ∀ fuel, 6 - depth ≤ fuel →
          Ray.tracePathInScene scene u fuel ray depth = some v) ∧
    Ray.tracePathInScene pingScene pingU 5 ⟨⟨0, 2, 0⟩, ⟨0, -1, 0⟩⟩ 0 =
      none ∧
    Ray.tracePathInScene pingScene pingU 6 ⟨⟨0, 2, 0⟩, ⟨0, -1, 0⟩⟩ 0 =
      some Vec3.zero := by
  refine ⟨?_, ping_five_none, ping_six_zero⟩
  intro scene u ray depth hdep
  have h6 : 6 - depth = 5 - depth + 1 := by omega
  obtain ⟨v, hv⟩ :=
    tracePath_returns scene u (5 - depth) ray depth (by omega) hdep
  refine ⟨v, by rw [h6]; exact hv, fun fuel hf => ?_⟩
  exact tracePath_mono scene u (5 - depth + 1) fuel ray depth v (by omega) hv

/-- Witness for C10 at the empty scene and depth 0. -/
theorem tracePath_terminates_witness :
    ∃ v, Ray.tracePathInScene (Scene.mk []) (fun _ => (0, 0)) (6 - 0)
        ⟨⟨0, 0, 0⟩, ⟨0, 0, 1⟩⟩ 0 = some v ∧
      ∀ fuel, 6 - 0 ≤ fuel →
        Ray.tracePathInScene (Scene.mk []) (fun _ => (0, 0)) fuel
          ⟨⟨0, 0, 0⟩, ⟨0, 0, 1⟩⟩ 0 = some v :=
  tracePath_terminates.1 (Scene.mk []) (fun _ => (0, 0))
    ⟨⟨0, 0, 0⟩, ⟨0, 0, 1⟩⟩ 0 (by norm_num)

/-- The loop body of `Scene.intersectionWithRay`, as a named fold step. -/
noncomputable def nearestStep (ray : Ray) :
    ℝ × Option Intersection → Shape → ℝ × Option Intersection :=
  fun acc object =>
    match Shape.intersectionWithRay object ray with
    | none => acc
    | some i => if i.distance < acc.1 then (i.distance, some i) else acc

/-- `Scene.intersectionWithRay` is the fold of `nearestStep` started at
`(Number.MAX_VALUE, undefined)`. -/
lemma Scene.intersectionWithRay_eq_foldl (scene : Scene) (ray : Ray) :
    scene.intersectionWithRay ray =
      (scene.objects.foldl (nearestStep ray)
        (maxValue, (none : Option Intersection))).2 := rfl

/-- Characterization of the `nearestStep` fold from an arbitrary
accumulator: it is the identity when no hit beats the running distance,
and otherwise returns the first hit achieving the least distance among
those beating it. -/
lemma nearestStep_foldl_spec (ray : Ray) :
    ∀ (objects : List Shape) (d : ℝ) (acc : Option Intersection),
      ((∀ i ∈ objects.filterMap (fun o => Shape.intersectionWithRay o ray),
          d ≤ i.distance) →
        objects.foldl (nearestStep ray) (d, acc) = (d, acc)) ∧
      (∀ i₀ ∈ objects.filterMap (fun o => Shape.intersectionWithRay o ray),
        i₀.distance < d →
        ∃ j ∈ objects.filterMap (fun o => Shape.intersectionWithRay o ray),
          j.distance < d ∧
          objects.foldl (nearestStep ray) (d, acc) = (j.distance, some j) ∧
          ∀ i ∈ objects.filterMap (fun o => Shape.intersectionWithRay o ray),
            i.distance < d → j.distance ≤ i.distance) := by
  intro objects
  induction objects with
  | nil =>
    intro d acc
    refine ⟨fun _ => rfl, fun i₀ h => ?_⟩
    simp at h
  | cons o os ih =>
    intro d acc
    rcases ho : Shape.intersectionWithRay o ray with _ | i
    · have hstep : nearestStep ray (d, acc) o = (d, acc) := by
        simp [nearestStep, ho]
      constructor
      · intro hall
        rw [List.foldl_cons, hstep]
        exact (ih d acc).1 (by simpa [List.filterMap_cons, ho] using hall)
      · intro i₀ hi₀ hlt₀
        have hi₀' : i₀ ∈ os.filterMap
            (fun o => Shape.intersectionWithRay o ray) := by
          simpa [List.filterMap_cons, ho] using hi₀
        obtain ⟨j, hj, hjd, hfold, hmin⟩ := (ih d acc).2 i₀ hi₀' hlt₀
        refine ⟨j, by simp [List.filterMap_cons, ho, hj], hjd, ?_, ?_⟩
        · rw [List.foldl_cons, hstep, hfold]
        · intro i hi hid
          exact hmin i (by simpa [List.filterMap_cons, ho] using hi) hid
    · by_cases hlt : i.distance < d
      · have hstep : nearestStep ray (d, acc) o = (i.distance, some i) := by
          simp [nearestStep, ho, hlt]
        constructor
        · intro hall
          exact absurd hlt (not_lt.mpr (hall i (by
            simp [List.filterMap_cons, ho])))
        · intro i₀ hi₀ hlt₀
          by_cases hos : ∃ i' ∈ os.filterMap
              (fun o => Shape.intersectionWithRay o ray),
              i'.distance < i.distance
          · obtain ⟨i', hi', hi'd⟩ := hos
            obtain ⟨j, hj, hjd, hfold, hmin⟩ :=
              (ih i.distance (some i)).2 i' hi' hi'd
            refine ⟨j, by simp [List.filterMap_cons, ho, hj],
              lt_trans hjd hlt, ?_, ?_⟩
            · rw [List.foldl_cons, hstep, hfold]
            · intro k hk hkd
              rcases (by simpa [List.filterMap_cons, ho] using hk :
                  k = i ∨ k ∈ os.filterMap
                    (fun o => Shape.intersectionWithRay o ray)) with hk' | hk'
              · subst hk'
                exact le_of_lt hjd
              · by_cases hki : k.distance < i.distance
                · exact hmin k hk' hki
                · exact le_trans (le_of_lt hjd) (not_lt.mp hki)
          · push_neg at hos
            have hfold := (ih i.distance (some i)).1 hos
            refine ⟨i, by simp [List.filterMap_cons, ho], hlt, ?_, ?_⟩
            · rw [List.foldl_cons, hstep, hfold]
            · intro k hk hkd
              rcases (by simpa [List.filterMap_cons, ho] using hk :
                  k = i ∨ k ∈ os.filterMap
                    (fun o => Shape.intersectionWithRay o ray)) with hk' | hk'
              · subst hk'
                exact le_refl _
              · exact hos k hk'
      · have hstep : nearestStep ray (d, acc) o = (d, acc) := by
          simp [nearestStep, ho, hlt]
        constructor
        · intro hall
          rw [List.foldl_cons, hstep]
          refine (ih d acc).1 fun i' hi' => hall i' ?_
          simp [List.filterMap_cons, ho, hi']
        · intro i₀ hi₀ hlt₀
          have hi₀' : i₀ ∈ os.filterMap
              (fun o => Shape.intersectionWithRay o ray) := by
            rcases (by simpa [List.filterMap_cons, ho] using hi₀ :
                i₀ = i ∨ i₀ ∈ os.filterMap
                  (fun o => Shape.intersectionWithRay o ray)) with h' | h'
            · subst h'
              exact absurd hlt₀ hlt
            · exact h'
          obtain ⟨j, hj, hjd, hfold, hmin⟩ := (ih d acc).2 i₀ hi₀' hlt₀
          refine ⟨j, by simp [List.filterMap_cons, ho, hj], hjd, ?_, ?_⟩
          · rw [List.foldl_cons, hstep, hfold]
          · intro k hk hkd
            rcases (by simpa [List.filterMap_cons, ho] using hk :
                k = i ∨ k ∈ os.filterMap
                  (fun o => Shape.intersectionWithRay o ray)) with hk' | hk'
            · subst hk'
              exact absurd hkd hlt
            · exact hmin k hk' hkd

/-- C5 (amended): the scene query returns the intersection of minimum
distance among shapes reporting a hit with distance below
`Number.MAX_VALUE`, and "no hit" when no shape reports a hit below that
threshold; with two overlapping shapes it returns the one with strictly
smaller positive distance. -/
theorem scene_nearest_hit_spec (scene : Scene) (ray : Ray) :
    ((∀ i ∈ scene.objects.filterMap
        (fun o => Shape.intersectionWithRay o ray),
        maxValue ≤ i.distance) →
      scene.intersectionWithRay ray = none) ∧
    ((∃ i ∈ scene.objects.filterMap
        (fun o => Shape.intersectionWithRay o ray),
        i.distance < maxValue) →
      ∃ j ∈ scene.objects.filterMap
        (fun o => Shape.intersectionWithRay o ray),
        scene.intersectionWithRay ray = some j ∧ j.distance < maxValue ∧
        ∀ i ∈ scene.objects.filterMap
          (fun o => Shape.intersectionWithRay o ray),
          i.distance < maxValue → j.distance ≤ i.distance) ∧
    (∀ (s1 s2 : Shape) (i1 i2 : Intersection),
      Shape.intersectionWithRay s1 ray = some i1 →
      Shape.intersectionWithRay s2 ray = some i2 →
      i1.distance < i2.distance → i2.distance < maxValue →
      (Scene.mk [s1, s2]).intersectionWithRay ray = some i1) := by
  refine ⟨?_, ?_, ?_⟩
  · intro hall
    rw [Scene.intersectionWithRay_eq_foldl,
      (nearestStep_foldl_spec ray scene.objects maxValue none).1 hall]
  · rintro ⟨i₀, hi₀, hlt₀⟩
    obtain ⟨j, hj, hjd, hfold, hmin⟩ :=
      (nearestStep_foldl_spec ray scene.objects maxValue none).2 i₀ hi₀ hlt₀
    exact ⟨j, hj, by rw [Scene.intersectionWithRay_eq_foldl, hfold], hjd,
      hmin⟩
  · intro s1 s2 i1 i2 h1 h2 h12 hm
    have hm1 : i1.distance < maxValue := lt_trans h12 hm
    rw [Scene.intersectionWithRay_eq_foldl]
    simp only [List.foldl_cons, List.foldl_nil]
    rw [show nearestStep ray (maxValue, none) s1 = (i1.distance, some i1)
      from by simp [nearestStep, h1, hm1]]
    rw [show nearestStep ray (i1.distance, some i1) s2 =
        (i1.distance, some i1)
      from by simp [nearestStep, h2, not_lt.mpr (le_of_lt h12)]]

/-- Witness for C5 at the empty scene: no shape, no hit. -/
theorem scene_nearest_hit_spec_witness :
    (Scene.mk []).intersectionWithRay ⟨⟨0, 0, 0⟩, ⟨0, 0, 1⟩⟩ = none :=
  (scene_nearest_hit_spec (Scene.mk []) ⟨⟨0, 0, 0⟩, ⟨0, 0, 1⟩⟩).1
    (by simp)

/-- A plane so far away that the hit distance equals `Number.MAX_VALUE`. -/
noncomputable def farPlane : Plane := ⟨⟨0, -maxValue, 0⟩, ⟨0, 1, 0⟩,
  whiteMaterial⟩

/-- The ray probing `farPlane` from the origin. -/
noncomputable def farRay : Ray := ⟨⟨0, 0, 0⟩, ⟨0, -1, 0⟩⟩

/-- Counterexample to C5 as stated: `farPlane` reports a hit
(`isHit == true`, at distance `Number.MAX_VALUE`), yet the scene query
returns "no hit", because the running minimum starts at
`Number.MAX_VALUE` and the comparison is strict. -/
theorem scene_nearest_hit_counterexample :
    Shape.intersectionWithRay (Shape.plane farPlane) farRay =
      some ⟨maxValue, ⟨0, 1, 0⟩, whiteMaterial⟩ ∧
    (Scene.mk [Shape.plane farPlane]).intersectionWithRay farRay = none := by
  have hm0 : (0 : ℝ) < maxValue := by norm_num [maxValue]
  have h1 : Shape.intersectionWithRay (Shape.plane farPlane) farRay =
      some ⟨maxValue, ⟨0, 1, 0⟩, whiteMaterial⟩ := by
    have key : maxValue / (-1) * (-1) = maxValue := by ring
    simp only [Shape.intersectionWithRay, Plane.intersectionWithRay,
      farPlane, farRay]
    norm_num [Vec3.dot, Vec3.subtract, key, not_le.mpr hm0]
  refine ⟨h1, ?_⟩
  rw [Scene.intersectionWithRay_eq_foldl]
  simp only [List.foldl_cons, List.foldl_nil]
  rw [show nearestStep farRay (maxValue, none) (Shape.plane farPlane) =
      (maxValue, none) from by simp [nearestStep, h1]]

/-- `getD` through `zipWith` at an in-bounds index. -/
lemma getD_zipWith_of_lt (f : Vec3 → Vec3 → Vec3) (a b : List Vec3) (i : ℕ)
    (ha : i < a.length) (hb : i < b.length) :
    (List.zipWith f a b).getD i Vec3.zero =
      f (a.getD i Vec3.zero) (b.getD i Vec3.zero) := by
  have hz : i < (List.zipWith f a b).length := by
    rw [List.length_zipWith]
    omega
  rw [List.getD_eq_getElem _ _ hz, List.getD_eq_getElem _ _ ha,
    List.getD_eq_getElem _ _ hb, List.getElem_zipWith]

/-- Componentwise sum, at pixel `i`, of a list of frames. -/
noncomputable def frameSumAt (frames : List (List Vec3)) (i : ℕ) : Vec3 :=
  frames.foldr (fun F acc => Vec3.add (F.getD i Vec3.zero) acc) Vec3.zero

/-- Folding `mergeFrame` over a list of frames from an arbitrary
accumulator state: the sample count adds the number of frames, the buffer
keeps its width, and each pixel holds the weighted mean
`(oldCount * old + sum of new frames) / (oldCount + number of frames)`. -/
lemma mergeFrame_foldl_spec (w : ℕ) :
    ∀ (frames : List (List Vec3)) (a : Accumulator),
      a.data.length = w → (∀ F ∈ frames, F.length = w) →
      1 ≤ a.sampleCount + frames.length →
      (frames.foldl Accumulator.mergeFrame a).sampleCount =
        a.sampleCount + frames.length ∧
      (frames.foldl Accumulator.mergeFrame a).data.length = w ∧
      ∀ i, i < w →
        (frames.foldl Accumulator.mergeFrame a).data.getD i Vec3.zero =
          Vec3.scale
            (Vec3.add
              (Vec3.scale (a.data.getD i Vec3.zero) (a.sampleCount : ℝ))
              (frameSumAt frames i))
            (1 / ((a.sampleCount : ℝ) + frames.length)) := by
  intro frames
  induction frames with
  | nil =>
    intro a ha hF hpos
    have hn0 : (a.sampleCount : ℝ) ≠ 0 := by
      have h1 : 1 ≤ a.sampleCount := by simpa using hpos
      exact_mod_cast Nat.one_le_iff_ne_zero.mp h1
    refine ⟨by simp, by simpa using ha, fun i hi => ?_⟩
    ext <;> simp [Vec3.scale, Vec3.add, frameSumAt, Vec3.zero] <;>
      field_simp
  | cons F rest ih =>
    intro a ha hF hpos
    simp only [List.foldl_cons]
    have hFw : F.length = w := hF F (by simp)
    have ha'len : (a.mergeFrame F).data.length = w := by
      simp [Accumulator.mergeFrame, List.length_zipWith, hFw, ha]
    have ha'count : (a.mergeFrame F).sampleCount = a.sampleCount + 1 := rfl
    obtain ⟨hc, hl, hval⟩ := ih (a.mergeFrame F) ha'len
      (fun G hG => hF G (by simp [hG])) (by simp [ha'count]; omega)
    refine ⟨by rw [hc, ha'count]; simp [List.length_cons]; omega,
      hl, fun i hi => ?_⟩
    rw [hval i hi]
    have hmerge : (a.mergeFrame F).data.getD i Vec3.zero =
        Vec3.add
          (Vec3.scale (F.getD i Vec3.zero)
            (1 / ((a.sampleCount + 1 : ℕ) : ℝ)))
          (Vec3.scale (a.data.getD i Vec3.zero)
            (1 - 1 / ((a.sampleCount + 1 : ℕ) : ℝ))) := by
      simp only [Accumulator.mergeFrame]
      exact getD_zipWith_of_lt _ F a.data i (by omega) (by omega)
    rw [hmerge, ha'count]
    have hne1 : ((a.sampleCount : ℝ) + 1) ≠ 0 := by positivity
    have hne2 : ((a.sampleCount : ℝ) + 1 + (rest.length : ℝ)) ≠ 0 := by
      positivity
    have hne3 :
        ((a.sampleCount : ℝ) + ((rest.length : ℝ) + 1)) ≠ 0 := by
      positivity
    ext <;>
      simp only [Vec3.scale, Vec3.add, frameSumAt, List.foldr_cons,
        List.length_cons, Nat.cast_add, Nat.cast_one] <;>
      push_cast <;>
      field_simp <;>
      ring

/-- C2: starting from `sampleCount = 0` and a zeroed buffer, one merge
yields exactly the merged frame, `sampleCount` grows by exactly 1 per
merge, and after merging frames `F1 .. Fn` every pixel of the mean buffer
equals the exact arithmetic mean `(F1[i] + ... + Fn[i]) / n`. -/
theorem accumulator_mean (w : ℕ) (frames : List (List Vec3))
    (hF : ∀ F ∈ frames, F.length = w) (hne : frames ≠ []) :
    (∀ (a : Accumulator) (F : List Vec3),
      (a.mergeFrame F).sampleCount = a.sampleCount + 1) ∧
    (∀ F : List Vec3, F.length = w →
      (Accumulator.init w).mergeFrame F = ⟨1, F⟩) ∧
    (frames.foldl Accumulator.mergeFrame (Accumulator.init w)).sampleCount =
      frames.length ∧
    ∀ i, i < w →
      (frames.foldl Accumulator.mergeFrame
          (Accumulator.init w)).data.getD i Vec3.zero =
        Vec3.scale (frameSumAt frames i) (1 / (frames.length : ℝ)) := by
  have hlen : 1 ≤ frames.length := List.length_pos.mpr hne
  obtain ⟨hc, hl, hval⟩ := mergeFrame_foldl_spec w frames
    (Accumulator.init w) (by simp [Accumulator.init])
    hF (by simpa [Accumulator.init] using hlen)
  refine ⟨fun a F => rfl, fun F hFw => ?_, by simpa [Accumulator.init]
    using hc, fun i hi => ?_⟩
  · have hdata : List.zipWith
        (fun newColor oldColor =>
          Vec3.add
            (Vec3.scale newColor
              (1 / (((Accumulator.init w).sampleCount + 1 : ℕ) : ℝ)))
            (Vec3.scale oldColor
              (1 - 1 / (((Accumulator.init w).sampleCount + 1 : ℕ) : ℝ))))
        F (Accumulator.init w).data = F := by
      apply List.ext_getElem
      · simp [Accumulator.init, List.length_zipWith, hFw]
      · intro n h1 h2
        rw [List.getElem_zipWith]
        have : (Accumulator.init w).sampleCount = 0 := rfl
        ext <;> simp [this, Vec3.add, Vec3.scale]
    simp only [Accumulator.mergeFrame]
    rw [hdata]
    rfl
  · rw [hval i hi]
    ext <;>
      simp [Vec3.scale, Vec3.add, Accumulator.init, Vec3.zero]

/-- Witness for C2: merging the two one-pixel frames `(2,0,0)` and
`(4,0,0)` gives sample count 2 and mean `((2,0,0) + (4,0,0)) / 2`. -/
theorem accumulator_mean_witness :
    (([[⟨2, 0, 0⟩], [⟨4, 0, 0⟩]] : List (List Vec3)).foldl
        Accumulator.mergeFrame (Accumulator.init 1)).sampleCount = 2 ∧
    (([[⟨2, 0, 0⟩], [⟨4, 0, 0⟩]] : List (List Vec3)).foldl
        Accumulator.mergeFrame (Accumulator.init 1)).data.getD 0 Vec3.zero =
      Vec3.scale (frameSumAt [[⟨2, 0, 0⟩], [⟨4, 0, 0⟩]] 0)
        (1 / ((2 : ℕ) : ℝ)) := by
  have h := accumulator_mean 1 [[⟨2, 0, 0⟩], [⟨4, 0, 0⟩]]
    (by intro F hF; simp at hF; rcases hF with rfl | rfl <;> rfl)
    (by simp)
  exact ⟨h.2.2.1, h.2.2.2 0 (by norm_num)⟩

/-- `reduceColorGo` computes the running mean: starting from `prev`
weighted as `i` samples, folding the remaining list yields the weighted
average of all of them. -/
lemma reduceColorGo_spec :
    ∀ (rest : List Vec3) (i : ℕ) (prev : Vec3), 1 ≤ i →
      reduceColorGo prev i rest =
        Vec3.scale (Vec3.add (Vec3.scale prev (i : ℝ)) (vsum rest))
          (1 / ((i : ℝ) + rest.length)) := by
  intro rest
  induction rest with
  | nil =>
    intro i prev hi
    have hi0 : (i : ℝ) ≠ 0 := by
      exact_mod_cast Nat.one_le_iff_ne_zero.mp hi
    simp only [reduceColorGo, vsum, List.foldr_nil, List.length_nil,
      Nat.cast_zero, add_zero]
    ext <;> simp [Vec3.scale, Vec3.add, Vec3.zero] <;> field_simp
  | cons v rest ih =>
    intro i prev hi
    simp only [reduceColorGo]
    rw [ih (i + 1) _ (by omega)]
    have h1 : ((i : ℝ) + 1) ≠ 0 := by positivity
    have h2 : ((i : ℝ) + ((rest.length : ℝ) + 1)) ≠ 0 := by positivity
    have h3 : ((i : ℝ) + 1 + (rest.length : ℝ)) ≠ 0 := by positivity
    ext <;>
      simp only [Vec3.scale, Vec3.add, vsum, List.foldr_cons,
        List.length_cons, Nat.cast_add, Nat.cast_one] <;>
      field_simp <;>
      ring

/-- The `.reduce` of `Renderer.update` computes the plain arithmetic mean:
each of the `n` list entries ends with final weight `1/n`. -/
lemma reduceColor_mean (l : List Vec3) (hne : l ≠ []) :
    reduceColor l = Vec3.scale (vsum l) (1 / (l.length : ℝ)) := by
  cases l with
  | nil => exact absurd rfl hne
  | cons v rest =>
    simp only [reduceColor]
    rw [reduceColorGo_spec rest 1 v (le_refl 1)]
    ext <;>
      simp only [Vec3.scale, Vec3.add, vsum, List.foldr_cons,
        List.length_cons, Nat.cast_add, Nat.cast_one, Nat.cast_ofNat] <;>
      ring_nf

/-- Length of a `flatMap` whose pieces all have the same length. -/
lemma length_flatMap_const {α β : Type} (l : List α) (f : α → List β) (n : ℕ)
    (h : ∀ a ∈ l, (f a).length = n) : (l.flatMap f).length = l.length * n := by
  induction l with
  | nil => simp
  | cons a as ih =>
    simp only [List.flatMap_cons, List.length_append, List.length_cons]
    rw [h a (by simp), ih (fun b hb => h b (by simp [hb]))]
    ring

/-- The sample-point list has `multiSample * multiSample` entries. -/
lemma samplePoints_length (c : Camera) (x y : ℝ) :
    (c.samplePointsForCoordinate x y).length =
      c.multiSample * c.multiSample := by
  have h := length_flatMap_const (List.range c.multiSample)
    (fun (jx : ℕ) => (List.range c.multiSample).map (fun (jy : ℕ) =>
      Vec3.add ⟨x / c.filmDPM, y / c.filmDPM, c.focalLength⟩
        (Vec3.scale ⟨(c.multiSample : ℝ) / (-2) + jx,
          (c.multiSample : ℝ) / (-2) + jy, 0⟩ (1 / c.filmDPM))))
    c.multiSample
    (fun a _ => by rw [List.length_map, List.length_range])
  simp only [Camera.samplePointsForCoordinate]
  rw [h, List.length_range]

/-- C7 (amended): `raysForCoordinate` returns exactly `k * k` rays
(`k = multiSample`), each from the camera position, one per image-plane
sample point; the sample points form the regular unit-spaced grid
`cell2center + ((k/(-2) + jx) / filmDPM, (k/(-2) + jy) / filmDPM, 0)` for
`jx, jy < k` — a grid spanning `k` whole pixel widths per axis, not
confined to the single pixel's footprint — and the caller's `.reduce`
averages the `k * k` per-ray radiances with equal final weight
`1 / k²`. -/
theorem camera_rays_spec (c : Camera) (x y : ℝ) :
    (c.raysForCoordinate x y).length = c.multiSample * c.multiSample ∧
    (∀ r ∈ c.raysForCoordinate x y, r.origin = c.position) ∧
    (∀ p ∈ c.samplePointsForCoordinate x y,
      ∃ jx, jx < c.multiSample ∧ ∃ jy, jy < c.multiSample ∧
        p = Vec3.add ⟨x / c.filmDPM, y / c.filmDPM, c.focalLength⟩
          (Vec3.scale ⟨(c.multiSample : ℝ) / (-2) + jx,
            (c.multiSample : ℝ) / (-2) + jy, 0⟩ (1 / c.filmDPM))) ∧
    (c.raysForCoordinate x y = (c.samplePointsForCoordinate x y).map
      (fun splitted =>
        ⟨c.position, (Vec3.multiply c.direction splitted).normalize⟩)) ∧
    (0 < c.multiSample → ∀ f : Ray → Vec3,
      reduceColor ((c.raysForCoordinate x y).map f) =
        Vec3.scale (vsum ((c.raysForCoordinate x y).map f))
          (1 / ((c.multiSample : ℝ) * (c.multiSample : ℝ)))) := by
  refine ⟨?_, ?_, ?_, rfl, ?_⟩
  · rw [Camera.raysForCoordinate, List.length_map, samplePoints_length]
  · intro r hr
    rw [Camera.raysForCoordinate] at hr
    obtain ⟨p, _, rfl⟩ := List.mem_map.mp hr
    rfl
  · intro p hp
    simp only [Camera.samplePointsForCoordinate, List.mem_flatMap,
      List.mem_map, List.mem_range] at hp
    obtain ⟨jx, hjx, jy, hjy, rfl⟩ := hp
    exact ⟨jx, hjx, jy, hjy, rfl⟩
  · intro hk f
    have hmaplen : ((c.raysForCoordinate x y).map f).length =
        c.multiSample * c.multiSample := by
      rw [List.length_map, Camera.raysForCoordinate, List.length_map,
        samplePoints_length]
    have hne : (c.raysForCoordinate x y).map f ≠ [] := by
      apply List.ne_nil_of_length_pos
      rw [hmaplen]
      exact Nat.mul_pos hk hk
    rw [reduceColor_mean _ hne, hmaplen]
    norm_cast

/-- The concrete camera exhibiting the counterexample grid:
`filmDPM = 1`, `multiSample = 2`. -/
noncomputable def gridCamera : Camera := ⟨⟨0, 0, 0⟩, ⟨1, 1, 1⟩, 1, 1, 1, 2⟩

/-- Counterexample to C7 as stated: for the pixel at `(0, 0)` of
`gridCamera` (pixel width `1 / filmDPM = 1`), the sample point
`(-1, -1, 1)` is generated, whose offset from the pixel center
`(0, 0, 1)` is a full pixel width per axis — not less than one pixel
width, i.e. not within the single pixel's footprint. -/
theorem camera_rays_counterexample :
    ∃ p ∈ gridCamera.samplePointsForCoordinate 0 0,
      ¬ (|p.x - 0 / gridCamera.filmDPM| < 1 / gridCamera.filmDPM ∧
         |p.y - 0 / gridCamera.filmDPM| < 1 / gridCamera.filmDPM) := by
  refine ⟨⟨-1, -1, 1⟩, ?_, ?_⟩
  · simp only [Camera.samplePointsForCoordinate, gridCamera,
      List.mem_flatMap, List.mem_range]
    refine ⟨0, by norm_num, ?_⟩
    simp only [List.mem_map, List.mem_range]
    refine ⟨0, by norm_num, ?_⟩
    norm_num [Vec3.add, Vec3.scale]
  · rw [not_and_or]
    left
    norm_num [gridCamera]

/-- Witness for C7: the averaging clause at `gridCamera`, pixel `(0,0)`,
with the constant radiance `(1, 0, 0)` per ray. -/
theorem camera_rays_spec_witness :
    reduceColor ((gridCamera.raysForCoordinate 0 0).map
        (fun _ => ⟨1, 0, 0⟩)) =
      Vec3.scale (vsum ((gridCamera.raysForCoordinate 0 0).map
        (fun _ => ⟨1, 0, 0⟩)))
        (1 / ((gridCamera.multiSample : ℝ) * gridCamera.multiSample)) :=
  (camera_rays_spec gridCamera 0 0).2.2.2.2 (by norm_num [gridCamera])
    (fun _ => ⟨1, 0, 0⟩)

/-- The stored byte differs from the clamped real value by at most 1/2
(the `Uint8ClampedArray` store rounds to the nearest integer). -/
lemma toUint8Clamp_close (v : ℝ) :
    |((toUint8Clamp v : ℝ)) - clamp255 v| ≤ 1 / 2 := by
  have hfl := Int.floor_le v
  have hfu := Int.lt_floor_add_one v
  simp only [toUint8Clamp, clamp255]
  split_ifs with h0 h255 ha hb hpar
  · rw [max_eq_left (le_trans (min_le_left v 255) h0)]
    norm_num
  · rw [min_eq_right h255, max_eq_right (by norm_num : (0:ℝ) ≤ 255)]
    norm_num
  all_goals {
    have hv0 : (0:ℝ) < v := not_le.mp h0
    have hv255 : v < 255 := not_le.mp h255
    have hf0 : (0:ℤ) ≤ ⌊v⌋ := Int.floor_nonneg.mpr hv0.le
    rw [min_eq_left hv255.le, max_eq_right hv0.le]
    have hcast : ((⌊v⌋.toNat : ℕ) : ℝ) = (⌊v⌋ : ℝ) := by
      exact_mod_cast Int.toNat_of_nonneg hf0
    push_cast
    rw [hcast, abs_le]
    constructor <;> linarith
  }

/-- When the clamped value is exactly a natural number, the stored byte
equals it. -/
lemma toUint8Clamp_exact (v : ℝ) (m : ℕ) (h : clamp255 v = m) :
    toUint8Clamp v = m := by
  simp only [clamp255] at h
  simp only [toUint8Clamp]
  split_ifs with h0 h255 ha hb hpar
  · rw [max_eq_left (le_trans (min_le_left v 255) h0)] at h
    exact_mod_cast h
  · rw [min_eq_right h255, max_eq_right (by norm_num : (0:ℝ) ≤ 255)] at h
    exact_mod_cast h
  · rw [min_eq_left (not_le.mp h255).le,
      max_eq_right (not_le.mp h0).le] at h
    subst h
    simp
  · rw [min_eq_left (not_le.mp h255).le,
      max_eq_right (not_le.mp h0).le] at h
    subst h
    exfalso
    rw [Int.floor_natCast] at hb
    push_cast at hb
    linarith
  · rw [min_eq_left (not_le.mp h255).le,
      max_eq_right (not_le.mp h0).le] at h
    subst h
    exfalso
    rw [Int.floor_natCast] at ha
    push_cast at ha
    exact ha (by linarith)
  · rw [min_eq_left (not_le.mp h255).le,
      max_eq_right (not_le.mp h0).le] at h
    subst h
    exfalso
    rw [Int.floor_natCast] at ha
    push_cast at ha
    exact ha (by linarith)

/-- C8 (amended): each 8-bit output channel of the tonemap stage is
`clamp(pow(c, 1/2.2) * 255, 0, 255)` rounded to the nearest integer by the
clamped byte store (so it differs from the clamp value by at most 1/2 and
equals it exactly whenever that value is a whole number), and the alpha
channel is 255. -/
theorem tonemap_spec (c : Vec3) (hx : 0 ≤ c.x) (hy : 0 ≤ c.y)
    (hz : 0 ≤ c.z) :
    |((tonemapPixel c).1 : ℝ) -
        clamp255 ((Vec3.pow c gammaCorrectionPower).x * 255)| ≤ 1 / 2 ∧
    |((tonemapPixel c).2.1 : ℝ) -
        clamp255 ((Vec3.pow c gammaCorrectionPower).y * 255)| ≤ 1 / 2 ∧
    |((tonemapPixel c).2.2.1 : ℝ) -
        clamp255 ((Vec3.pow c gammaCorrectionPower).z * 255)| ≤ 1 / 2 ∧
    (tonemapPixel c).2.2.2 = 255 ∧
    (∀ m : ℕ, clamp255 ((Vec3.pow c gammaCorrectionPower).x * 255) = m →
      (tonemapPixel c).1 = m) ∧
    (∀ m : ℕ, clamp255 ((Vec3.pow c gammaCorrectionPower).y * 255) = m →
      (tonemapPixel c).2.1 = m) ∧
    (∀ m : ℕ, clamp255 ((Vec3.pow c gammaCorrectionPower).z * 255) = m →
      (tonemapPixel c).2.2.1 = m) :=
  ⟨toUint8Clamp_close _, toUint8Clamp_close _, toUint8Clamp_close _,
   toUint8Clamp_exact 255 255 (by norm_num [clamp255]),
   fun m h => toUint8Clamp_exact _ m h,
   fun m h => toUint8Clamp_exact _ m h,
   fun m h => toUint8Clamp_exact _ m h⟩

/-- The radiance whose gamma-corrected x channel is exactly 1/2
(`(1/2) ^ 2.2`), so the scaled channel value is 127.5. -/
noncomputable def halfGray : Vec3 := ⟨(1 / 2 : ℝ) ^ ((11 : ℝ) / 5), 0, 0⟩

/-- Counterexample to C8 as stated: for the nonnegative radiance
`halfGray`, `pow(c.x, 1/2.2) * 255 = 127.5`, the clamp leaves it at 127.5,
but the stored byte is 128 (round half to even), so the output does not
equal the claimed clamp value. -/
theorem tonemap_counterexample :
    ¬ (((tonemapPixel halfGray).1 : ℝ) =
        clamp255 ((Vec3.pow halfGray gammaCorrectionPower).x * 255)) := by
  have hg : gammaCorrectionPower = 5 / 11 := by
    norm_num [gammaCorrectionPower]
  have hpow : (Vec3.pow halfGray gammaCorrectionPower).x = 1 / 2 := by
    simp only [Vec3.pow, halfGray, hg]
    rw [← Real.rpow_mul (by norm_num : (0:ℝ) ≤ 1 / 2)]
    norm_num
  have hval : (Vec3.pow halfGray gammaCorrectionPower).x * 255 =
      255 / 2 := by
    rw [hpow]
    ring
  have hclamp : clamp255 (255 / 2 : ℝ) = 255 / 2 := by
    rw [clamp255, min_eq_left (by norm_num), max_eq_right (by norm_num)]
  have hfloor : ⌊(255 / 2 : ℝ)⌋ = 127 := by
    rw [Int.floor_eq_iff] <;> norm_num
  have hout : (tonemapPixel halfGray).1 = 128 := by
    show toUint8Clamp ((Vec3.pow halfGray gammaCorrectionPower).x * 255) =
      128
    rw [hval]
    simp only [toUint8Clamp, hfloor]
    norm_num
    rfl
  rw [hout, hval, hclamp]
  norm_num

/-- Witness for C8 at the radiance `(1, 1, 1)`: alpha is 255 and the x
channel is within 1/2 of the clamp value. -/
theorem tonemap_spec_witness :
    (tonemapPixel ⟨1, 1, 1⟩).2.2.2 = 255 ∧
    |((tonemapPixel ⟨1, 1, 1⟩).1 : ℝ) -
        clamp255 ((Vec3.pow ⟨1, 1, 1⟩ gammaCorrectionPower).x * 255)| ≤
      1 / 2 :=
  ⟨(tonemap_spec ⟨1, 1, 1⟩ (by norm_num) (by norm_num)
      (by norm_num)).2.2.2.1,
   (tonemap_spec ⟨1, 1, 1⟩ (by norm_num) (by norm_num)
      (by norm_num)).1⟩
